import Mathlib

/-!
Verification of the balena-cli multi-service build-and-deploy pipeline
(`lib/utils/compose.js` / `lib/utils/qemu.ts`), via a shallow embedding of
the relevant JavaScript/TypeScript functions as executable Lean definitions.

Strings from the source are modelled as `List Char` where character-level
reasoning (slicing, regex matching) is needed, and as `String` where only
whole-value equality matters.
-/

namespace BalenaCLI

/-! ## Definitions: the shallow embedding -/

def QEMU_VERSION : String := "v4.0.0+balena2"

def QEMU_BIN_NAME : String := "qemu-execve"

/-- `balenaArchToQemuArch` (qemu.ts lines 122-133): a closed switch mapping
balena CPU architecture names to qemu emulator variants; the default case
throws. The JS switch with fall-through cases is rendered as a chained
conditional. -/
def balenaArchToQemuArch (arch : String) : Except String String :=
  if arch = "armv7hf" ∨ arch = "rpi" ∨ arch = "armhf" then .ok "arm"
  else if arch = "aarch64" then .ok "aarch64"
  else .error ("Cannot install emulator for architecture " ++ arch)

/-- The cached emulator binary path for an architecture
(`getQemuPath`, qemu.ts lines 63-77): `binDirectory` is an external setting
and is abstracted away; the versioned filename is
`qemu-execve-<arch>-<version>`. -/
def getQemuPath (arch : String) : String :=
  QEMU_BIN_NAME ++ "-" ++ arch ++ "-" ++ QEMU_VERSION

/-- Local binary cache state: the set of files that exist. -/
structure FsState where
  files : List String
deriving DecidableEq

def fsExists (st : FsState) (p : String) : Bool :=
  st.files.contains p

/-- `installQemu` (qemu.ts lines 79-120): opens a write stream at the cached
path (creating the file) and then resolves the architecture; an unsupported
architecture makes the promise reject *after* the target file was created.
The HTTP download itself is an external effect; on success the binary is in
place. Returns the new file-system state and an optional thrown error. -/
def installQemu (arch : String) (st : FsState) : FsState × Option String :=
  let st' : FsState := { files := getQemuPath arch :: st.files }
  match balenaArchToQemuArch arch with
  | .error e => (st', some e)
  | .ok _ => (st', none)

/-- Result of one `installQemuIfNeeded` call: the returned boolean (or the
thrown error), the resulting cache state, and how many downloads/installs
actually completed during the call. -/
structure ProvisionResult where
  result : Except String Bool
  fs : FsState
  installs : Nat

/-- `installQemuIfNeeded` (qemu.ts lines 135-153): returns `false` when not
emulated or when the daemon needs no qemu (`platformNeedsQemu` is an external
query, passed here as the boolean `needsQemu`); otherwise installs only when
the versioned cached binary does not already exist. -/
def installQemuIfNeeded (emulated needsQemu : Bool) (arch : String)
    (st : FsState) : ProvisionResult :=
  if !emulated || !needsQemu then ⟨.ok false, st, 0⟩
  else if fsExists st (getQemuPath arch) then ⟨.ok true, st, 0⟩
  else
    match installQemu arch st with
    | (st', some e) => ⟨.error e, st', 0⟩
    | (st', none) => ⟨.ok true, st', 1⟩

/-- JavaScript `String.prototype.lastIndexOf` for a single character:
the largest index holding `c`, or `-1` when `c` does not occur. -/
def jsLastIndexOf : List Char → Char → Int
  | [], _ => -1
  | a :: rest, c =>
    let r := jsLastIndexOf rest c
    if 0 ≤ r then r + 1 else if a = c then 0 else -1

/-- JavaScript `str.slice(0, stop)`: a negative `stop` counts from the end
(clamped at zero). -/
def jsSlice0 (s : List Char) (stop : Int) : List Char :=
  if stop < 0 then s.take (s.length - (-stop).toNat) else s.take stop.toNat

/-- `truncateString` (compose.js lines 243-252): strings shorter than `len`
are returned unchanged; otherwise the string is cut at `len` and then cut
again at the last newline of that prefix (`slice(0, lastIndexOf '\n')`). -/
def truncateString (s : List Char) (len : Nat) : List Char :=
  if s.length < len then s
  else jsSlice0 (s.take len) (jsLastIndexOf (s.take len) '\n')

def LOG_LENGTH_MAX : Nat := 512 * 1024

/-- The truncation point is a newline boundary: the result is empty or the
original string carries a `'\n'` immediately after the truncated prefix
(the code drops the newline itself). -/
def endsAtNewlineBoundary (orig res : List Char) : Prop :=
  res = [] ∨ orig[res.length]? = some '\n'

instance (orig res : List Char) : Decidable (endsAtNewlineBoundary orig res) := by
  unfold endsAtNewlineBoundary
  infer_instance

/-- JavaScript `\s`: tab, line feed, vertical tab, form feed, carriage
return, space, no-break space, Ogham space mark, the U+2000–U+200A spaces,
the U+2028/U+2029 line/paragraph separators, narrow no-break space, medium
mathematical space, ideographic space and the BOM. -/
def jsIsSpace (c : Char) : Bool :=
  c.toNat = 32 ∨ c.toNat = 9 ∨ c.toNat = 10 ∨ c.toNat = 11 ∨
    c.toNat = 12 ∨ c.toNat = 13 ∨ c.toNat = 0xa0 ∨ c.toNat = 0x1680 ∨
    (0x2000 ≤ c.toNat ∧ c.toNat ≤ 0x200a) ∨ c.toNat = 0x2028 ∨
    c.toNat = 0x2029 ∨ c.toNat = 0x202f ∨ c.toNat = 0x205f ∨
    c.toNat = 0x3000 ∨ c.toNat = 0xfeff

/-- A JavaScript LineTerminator: line feed, carriage return, line
separator (U+2028) or paragraph separator (U+2029). Without the `s` flag,
`.` matches any character that is *not* one of these. -/
def jsIsLineTerminator (c : Char) : Bool :=
  c.toNat = 10 || c.toNat = 13 || c.toNat = 0x2028 || c.toNat = 0x2029

/-- JavaScript `\d`. -/
def jsIsDigit (c : Char) : Bool :=
  48 ≤ c.toNat && c.toNat ≤ 57

/-- `parseInt(d, 10)` on a string of decimal digits. -/
def parseIntDigits (ds : List Char) : Nat :=
  ds.foldl (fun n c => n * 10 + (c.toNat - 48)) 0

/-- The step regex `^\s*Step\s+(\d+)\/(\d+)\s*: (.+)$` as a deterministic
parser (the regex has no backtracking ambiguity: digits, whitespace and the
literal separators cannot overlap). Returns the three capture groups.
`.` matches no LineTerminator, and without the `m` flag `$` is the very end
of the string, so a line with a LineTerminator inside the final group
fails to match. -/
def stepRegexMatch (s : List Char) : Option (List Char × List Char × List Char) :=
  match s.dropWhile jsIsSpace with
  | 'S' :: 't' :: 'e' :: 'p' :: rest =>
    if (rest.takeWhile jsIsSpace).isEmpty then none
    else
      let r1 := rest.dropWhile jsIsSpace
      let d1 := r1.takeWhile jsIsDigit
      if d1.isEmpty then none
      else
        match r1.dropWhile jsIsDigit with
        | '/' :: r3 =>
          let d2 := r3.takeWhile jsIsDigit
          if d2.isEmpty then none
          else
            match (r3.dropWhile jsIsDigit).dropWhile jsIsSpace with
            | ':' :: ' ' :: rest2 =>
              if rest2.isEmpty then none
              else if rest2.any jsIsLineTerminator then none
              else some (d1, d2, rest2)
            | _ => none
        | _ => none
  | _ => none

/-- The adapter's closure state: `step` and `numSteps` hold the matched digit
strings (`numSteps` is frozen at its first value), `progress` the last
computed percentage. All start as JS `null`/`undefined`. -/
structure AdapterState where
  step : Option (List Char)
  numSteps : Option (List Char)
  progress : Option Nat
deriving DecidableEq

def initialAdapterState : AdapterState := ⟨none, none, none⟩

/-- A structured `{status, progress}` event emitted by the adapter. -/
structure BuildEvent where
  status : Option (List Char)
  progress : Option Nat
deriving DecidableEq

/-- One `buildProgressAdapter` transform step (compose.js lines 822-851).
In inline mode every line becomes a plain `{status}` event. Otherwise a
`Successfully tagged` line resets `progress` to undefined; a line matching
the step regex updates `step` (and `numSteps` if still unset); and whenever
`step` is set the outgoing status is rebuilt as `Step <n>/<m>: <text>` with
`progress = floor(parseInt(step) * 100 / parseInt(numSteps))`.
(When `step` is set, `numSteps` is necessarily set too — they are only
assigned together — so the `some/none` fallthrough is unreachable.) -/
def buildProgressAdapterStep (inline : Bool) (st : AdapterState)
    (str : List Char) : AdapterState × BuildEvent :=
  if inline then (st, { status := some str, progress := none })
  else if "Successfully tagged ".data.isPrefixOf str then
    ({ st with progress := none }, { status := some str, progress := none })
  else
    let parsed := stepRegexMatch str
    let stp? := match parsed with
      | some (d1, _, _) => some d1
      | none => st.step
    let ns? := match parsed with
      | some (_, d2, _) => some (st.numSteps.getD d2)
      | none => st.numSteps
    let str1 := match parsed with
      | some (_, _, rest) => rest
      | none => str
    match stp?, ns? with
    | some stp, some ns =>
      let prog := parseIntDigits stp * 100 / parseIntDigits ns
      (⟨some stp, some ns, some prog⟩,
        { status := some ("Step ".data ++ stp ++ "/".data ++ ns
            ++ ": ".data ++ str1),
          progress := some prog })
    | _, _ => (⟨stp?, ns?, st.progress⟩,
        { status := some str1, progress := st.progress })

/-- A structured `{error?, progress?, status?}` event as produced by the
progress adapters and consumed by `buildLogCapture` in object mode. -/
structure StructuredEvent where
  error : Option (List Char)
  progress : Option Nat
  status : Option (List Char)
deriving DecidableEq

/-- Data flowing through a capture stream (and into the log buffer): a
structured event (object mode, pull streams) or a raw log line (build
streams). -/
inductive StreamData where
  | obj (e : StructuredEvent)
  | raw (s : List Char)
deriving DecidableEq

/-- JS truthiness of an optional string-valued field: present and
non-empty. -/
def truthyStr : Option (List Char) → Bool
  | some s => !s.isEmpty
  | none => false

/-- JS truthiness of an optional number-valued field: present and
non-zero. -/
def truthyNat : Option Nat → Bool
  | some n => n != 0
  | none => false

/-- One `buildLogCapture` transform step (compose.js lines 792-811): the
first component is the single entry appended to the log buffer for this
datum, the second is what is passed downstream — always the original datum,
via `cb(null, data)`. The branches test JS truthiness (`if (data.error)`
etc.), so present-but-falsy fields fall through. -/
def buildLogCaptureStep (data : StreamData) : StreamData × StreamData :=
  let entry :=
    match data with
    | .obj e =>
      if truthyStr e.error then .raw (e.error.getD [])
      else if truthyNat e.progress && truthyStr e.status then
        .raw ((toString (e.progress.getD 0)).data ++ "% ".data
          ++ e.status.getD [])
      else if truthyStr e.status then .raw (e.status.getD [])
      else data
    | .raw _ => data
  (entry, data)

/-- `details` of a docker pull error event. -/
structure ErrDetail where
  message : Option (List Char)
deriving DecidableEq

/-- A raw docker pull progress event, as destructured by
`pullProgressAdapter` (compose.js lines 854-870). -/
structure PullEvent where
  status : Option (List Char)
  id : Option (List Char)
  percentage : Option Nat
  error : Option (List Char)
  errorDetail : Option ErrDetail
deriving DecidableEq

/-- `status.replace(/^Status: /, '')`: strips one leading `Status: `. -/
def stripStatusHeader (s : List Char) : List Char :=
  if "Status: ".data.isPrefixOf s then s.drop 8 else s

/-- `pullProgressAdapter` (compose.js lines 854-870) mapped over one event:
strips the `Status: ` header, prepends `<id>: ` when an id is present (JS
stringifies a missing status as `undefined` there), turns a reported
percentage of exactly 100 into undefined progress, and selects
`errorDetail?.message ?? error` as the error. -/
def pullProgressAdapter (ev : PullEvent) : StructuredEvent :=
  let status1 := ev.status.map stripStatusHeader
  let status2 := match ev.id with
    | some i => some (i ++ ": ".data ++ (match status1 with
        | some s => s
        | none => "undefined".data))
    | none => status1
  let percentage := if ev.percentage = some 100 then none else ev.percentage
  { error := match ev.errorDetail with
      | some d => match d.message with
        | some m => some m
        | none => ev.error
      | none => ev.error,
    progress := percentage,
    status := status2 }

structure RetryParams where
  times : Nat
  delayMs : Nat
  backoffScaler : ℚ
deriving DecidableEq

/-- The retry configuration passed positionally to `retry` at the push call
site (compose.js lines 632-638): 3 retries, 2000 ms before the first retry,
1.4 wait multiplier per retry. The `retry` helper itself lives outside this
core. -/
def pushRetryParams : RetryParams :=
  { times := 3, delayMs := 2000, backoffScaler := 14 / 10 }

/-- A cloud `ServiceImage` record: the fields written by
`pushAndUpdateServiceImages`. -/
structure ServiceImage where
  image_size : Option Nat
  content_hash : Option String
  build_log : Option String
  dockerfile : Option String
  project_type : Option String
  start_timestamp : Option Nat
  end_timestamp : Option Nat
  push_timestamp : Option Nat
  status : Option String
  error_message : Option String
deriving DecidableEq

/-- Per-image input to the push stage: the daemon-reported size, the
image's build logs and props, the outcome of the (retried) push — the
content digest on success, the thrown error on ultimate failure — and the
initial `ServiceImage` record from the created release. -/
structure PushImageInput where
  size : Nat
  pushResult : Except String String
  logs : String
  dockerfile : Option String
  projectType : Option String
  startTime : Option Nat
  endTime : Option Nat
  serviceImage : ServiceImage

def exceptThrew {ε α : Type} : Except ε α → Bool
  | .error _ => true
  | .ok _ => false

/-- The per-image body of `pushAndUpdateServiceImages` (compose.js lines
629-658): on push success the join handler records size, digest, logs,
metadata (timestamps only when truthy) and `status = success`; on failure
the handler never runs and `tapCatch` records `error_message = '' + e` and
`status = failed`. `now` is the clock value used for `push_timestamp`. -/
def pushOneImage (now : Nat) (inp : PushImageInput) : ServiceImage :=
  match inp.pushResult with
  | .ok digest =>
    { inp.serviceImage with
      image_size := some inp.size,
      content_hash := some digest,
      build_log := some inp.logs,
      dockerfile := inp.dockerfile,
      project_type := inp.projectType,
      start_timestamp := if inp.startTime.isSome then inp.startTime
        else inp.serviceImage.start_timestamp,
      end_timestamp := if inp.endTime.isSome then inp.endTime
        else inp.serviceImage.end_timestamp,
      push_timestamp := some now,
      status := some "success" }
  | .error e =>
    { inp.serviceImage with
      error_message := some e,
      status := some "failed" }

/-- `pushAndUpdateServiceImages` (compose.js lines 614-662) over the image
list: the per-image final records, the sequence of `afterEach` callback
invocations (the `.finally` fires once per image with that image's final
record), and whether the overall `Promise.map` rejects — `tapCatch` records
the failure but re-throws, so any per-image failure rejects the batch. -/
def pushAndUpdateServiceImages (now : Nat) (images : List PushImageInput) :
    List ServiceImage × List ServiceImage × Bool :=
  let updated := images.map (pushOneImage now)
  (updated, updated, images.any fun i => exceptThrew i.pushResult)

/-- A cloud `Release` record: the fields `deployProject` manipulates in its
finalization (identity, status, end timestamp). -/
structure Release where
  id : Option Nat
  status : Option String
  endTimestampSet : Bool
deriving DecidableEq

/-- `getPreviousRepos` (compose.js lines 547-586): any query error is
caught, logged, and degraded to an empty repository list — never
rethrown. -/
def getPreviousRepos (queryResult : Except String (List String)) :
    List String :=
  match queryResult with
  | .ok l => l
  | .error _ => []

/-- `authorizePush` (compose.js lines 588-612): `catchReturn({})` degrades a
token-request failure to an empty token object rather than rethrowing. -/
def authorizePush (requestResult : Except String String) : Option String :=
  match requestResult with
  | .ok tok => some tok
  | .error _ => none

/-- The externally determined outcomes feeding one `deployProject` run: the
tagging-stage result (an unparseable image location rejects it), the raw
authorization outcome (always absorbed by `authorizePush`), the per-image
push inputs, and whether the best-effort untagging in the inner `finally`
handler succeeded (in Bluebird a rejected `finally` handler supersedes the
chain's result). -/
structure DeployOutcomes where
  tagResult : Except String Unit
  authRequest : Except String String
  pushImages : List PushImageInput
  untagOk : Bool

/-- Whether the tagging / authorization / push / untag chain inside
`deployProject`'s `.tap` (compose.js lines 687-728) rejects. The
previous-release query and the token request never reject (both are
caught); a tagging rejection skips everything else; otherwise the chain
rejects iff the push stage rejects or the untagging rejects. -/
def deployStageThrew (now : Nat) (oc : DeployOutcomes) : Bool :=
  match oc.tagResult with
  | .error _ => true
  | .ok _ =>
    let _token := authorizePush oc.authRequest
    (pushAndUpdateServiceImages now oc.pushImages).2.2 || !oc.untagOk

/-- The tail of `deployProject` (compose.js lines 729-746): `.then` sets
`status = success` when the chain resolved, `.tapCatch` sets
`status = failed` when it rejected, and the `.finally` always sets the end
timestamp and calls `updateRelease` exactly when `release.id` is non-null.
Returns the final release record and whether it was persisted. -/
def deployProject (now : Nat) (release : Release) (oc : DeployOutcomes) :
    Release × Bool :=
  let r1 : Release :=
    { release with
      status :=
        some (if deployStageThrew now oc then "failed" else "success"),
      endTimestampSet := true }
  (r1, r1.id.isSome)

/-- Observable lifecycle state of `BuildProgressUI`: the `_ended` latch,
whether the SIGINT handler is registered, whether the 10 Hz runloop is
live, whether the tty cursor is hidden, and a count of the full
clear/status/summary renders performed by `end`. -/
structure UIState where
  ended : Bool
  sigintRegistered : Bool
  runloopActive : Bool
  cursorHidden : Bool
  renders : Nat
deriving DecidableEq

/-- `BuildProgressUI.start` (compose.js lines 966-974): registers the SIGINT
handler, hides the cursor and starts the runloop. -/
def uiStart (st : UIState) : UIState :=
  { st with
    sigintRegistered := true
    cursorHidden := true
    runloopActive := true }

/-- `BuildProgressUI.end` (compose.js lines 976-989): an early return when
`_ended` is already set; otherwise it latches `_ended`, removes the SIGINT
listener, stops and clears the runloop, performs the final
clear/status/summary render, and shows the cursor. -/
def uiEnd (st : UIState) : UIState :=
  if st.ended then st
  else
    { ended := true, sigintRegistered := false, runloopActive := false,
      cursorHidden := false, renders := st.renders + 1 }

/-- Observable lifecycle state of `BuildProgressInline`: the `_ended` latch
and a count of final writes to the output stream. -/
structure InlineState where
  ended : Bool
  finalWrites : Nat
deriving DecidableEq

/-- `BuildProgressInline.end` (compose.js lines 1121-1149): early return
when already ended; otherwise latches `_ended` and writes the summary lines
and the closing `Built N services in ...` line (counted as one final
write; this renderer registers no interrupt handler). -/
def inlineEnd (st : InlineState) : InlineState :=
  if st.ended then st
  else { ended := true, finalWrites := st.finalWrites + 1 }

/-- A JSON-ish value as found in docker build options at this call site:
a scalar (modelled as a string) or a flat string map (e.g. `buildargs`). -/
inductive JsVal where
  | str (s : String)
  | map (m : List (String × String))
deriving DecidableEq

/-- A JS object as an association list; keys are unique in objects built
from literals, and lookup returns the first match. -/
abbrev JsObj := List (String × JsVal)

def lookupStr : List (String × String) → String → Option String
  | [], _ => none
  | (k', v') :: rest, k => if k' = k then some v' else lookupStr rest k

def lookupVal : JsObj → String → Option JsVal
  | [], _ => none
  | (k', v') :: rest, k => if k' = k then some v' else lookupVal rest k

def upsertStr : List (String × String) → String → String →
    List (String × String)
  | [], k, v => [(k, v)]
  | (k', v') :: rest, k, v =>
    if k' = k then (k, v) :: rest else (k', v') :: upsertStr rest k v

def upsertVal : JsObj → String → JsVal → JsObj
  | [], k, v => [(k, v)]
  | (k', v') :: rest, k, v =>
    if k' = k then (k, v) :: rest else (k', v') :: upsertVal rest k v

/-- lodash `_.merge` on a flat string map: source entries overwrite
destination entries key by key, in place. -/
def mergeFlat (dst src : List (String × String)) : List (String × String) :=
  src.foldl (fun acc kv => upsertStr acc kv.1 kv.2) dst

/-- One source entry of lodash `_.merge` on the two-level objects used
here: plain objects present on both sides merge recursively; any other
source value is assigned over the destination value. -/
def mergeEntry (dst : JsObj) (k : String) (v : JsVal) : JsObj :=
  match lookupVal dst k, v with
  | some (.map m1), .map m2 => upsertVal dst k (.map (mergeFlat m1 m2))
  | _, _ => upsertVal dst k v

/-- lodash `_.merge(dst, src)` restricted to the two-level shapes at this
call site. -/
def jsMergeObj (dst src : JsObj) : JsObj :=
  src.foldl (fun acc kv => mergeEntry acc kv.1 kv.2) dst

/-- The scheduler's first option merge (compose.js lines 346-349):
`task.dockerOpts` defaults to `{}` when null, then
`_.merge(task.dockerOpts, buildOpts, { t: task.tag })`. -/
def mergedOptsBase (taskOpts : Option JsObj) (buildOpts : JsObj)
    (tag : String) : JsObj :=
  jsMergeObj (jsMergeObj (taskOpts.getD []) buildOpts) [("t", .str tag)]

/-- Lines 350-359: when the descriptor's build context carries `args`, they
are merged *into* `task.dockerOpts.buildargs`, which is initialised to `{}`
when null. (A primitive `buildargs` value is left untouched: lodash cannot
mutate a primitive and the return value of that `_.merge` is discarded.) -/
def configureBuildOpts (taskOpts : Option JsObj) (buildOpts : JsObj)
    (tag : String) (contextArgs : Option (List (String × String))) :
    JsObj :=
  match contextArgs with
  | none => mergedOptsBase taskOpts buildOpts tag
  | some args =>
    match lookupVal (mergedOptsBase taskOpts buildOpts tag) "buildargs" with
    | some (.str _) => mergedOptsBase taskOpts buildOpts tag
    | some (.map m) =>
      upsertVal (mergedOptsBase taskOpts buildOpts tag) "buildargs"
        (.map (mergeFlat m args))
    | none =>
      upsertVal (mergedOptsBase taskOpts buildOpts tag) "buildargs"
        (.map (mergeFlat [] args))

/-- The `buildargs` map of an options object (empty when absent or not a
map). -/
def resultBuildargs (o : JsObj) : List (String × String) :=
  match lookupVal o "buildargs" with
  | some (.map m) => m
  | _ => []

/-! ## Theorems -/

lemma jsLastIndexOf_of_not_mem {c : Char} :
    ∀ {l : List Char}, c ∉ l → jsLastIndexOf l c = -1
  | [], _ => rfl
  | a :: rest, h => by
    have hne : a ≠ c := by
      rintro rfl
      exact h (List.mem_cons_self _ _)
    have hr : jsLastIndexOf rest c = -1 :=
      jsLastIndexOf_of_not_mem fun hm => h (List.mem_cons_of_mem _ hm)
    simp [jsLastIndexOf, hr, hne]

lemma jsLastIndexOf_spec_of_mem {c : Char} {l : List Char} (hm : c ∈ l) :
    0 ≤ jsLastIndexOf l c ∧ (jsLastIndexOf l c).toNat < l.length ∧
      l[(jsLastIndexOf l c).toNat]? = some c := by
  induction l with
  | nil => cases hm
  | cons a rest ih =>
    by_cases hrest : c ∈ rest
    · obtain ⟨h0, hlt, hget⟩ := ih hrest
      have hstep : jsLastIndexOf (a :: rest) c = jsLastIndexOf rest c + 1 := by
        simp [jsLastIndexOf, h0]
      rw [hstep]
      have hto : (jsLastIndexOf rest c + 1).toNat = (jsLastIndexOf rest c).toNat + 1 := by
        omega
      rw [hto]
      refine ⟨by omega, ?_, ?_⟩
      · simp only [List.length_cons]
        omega
      · simpa using hget
    · have hac : a = c := by
        rcases List.mem_cons.mp hm with h | h
        · exact h.symm
        · exact absurd h hrest
      have hr : jsLastIndexOf rest c = -1 := jsLastIndexOf_of_not_mem hrest
      have hstep : jsLastIndexOf (a :: rest) c = 0 := by
        simp [jsLastIndexOf, hr, hac]
      rw [hstep]
      simp [hac]

/-- Claim C2 is refuted on this input: a string of length `LOG_LENGTH_MAX + 1`
containing no newline at all. The code computes `lastIndexOf '\n' = -1` on
the capped prefix, and JavaScript `slice(0, -1)` then drops only the final
character, so the result ends mid-line rather than at a newline boundary. -/
theorem truncateString_counterexample :
    (List.replicate (LOG_LENGTH_MAX + 1) 'a').length > LOG_LENGTH_MAX
    ∧ ¬ endsAtNewlineBoundary (List.replicate (LOG_LENGTH_MAX + 1) 'a')
        (truncateString (List.replicate (LOG_LENGTH_MAX + 1) 'a')
          LOG_LENGTH_MAX) := by
  have hM : LOG_LENGTH_MAX = 524288 := by norm_num [LOG_LENGTH_MAX]
  have hnm : ∀ n : Nat, '\n' ∉ List.replicate n 'a' := by
    intro n h
    have := List.eq_of_mem_replicate h
    exact absurd this (by decide)
  constructor
  · simp
  · have htake : (List.replicate (LOG_LENGTH_MAX + 1) 'a').take LOG_LENGTH_MAX
        = List.replicate LOG_LENGTH_MAX 'a' := by
      rw [List.take_replicate]
      congr 1
    have hlio : jsLastIndexOf (List.replicate LOG_LENGTH_MAX 'a') '\n' = -1 :=
      jsLastIndexOf_of_not_mem (hnm _)
    have hres : truncateString (List.replicate (LOG_LENGTH_MAX + 1) 'a')
        LOG_LENGTH_MAX = List.replicate (LOG_LENGTH_MAX - 1) 'a' := by
      unfold truncateString
      rw [if_neg (by simp), htake, hlio]
      unfold jsSlice0
      rw [if_pos (by decide), List.length_replicate, List.take_replicate]
      congr 1
    rw [hres]
    unfold endsAtNewlineBoundary
    push_neg
    constructor
    · intro h
      have := congrArg List.length h
      rw [List.length_replicate] at this
      simp at this
      omega
    · rw [List.length_replicate, List.getElem?_replicate,
        if_pos (by omega)]
      simp

/-- Claim C2 (amended): for a string of length at least the cap, the
truncation returns a proper prefix of length strictly below the cap; the
truncation point is a newline boundary whenever the capped prefix contains a
newline, and otherwise the result is the capped prefix minus its final
character (possibly ending mid-line); a string strictly shorter than the cap
is returned unchanged.  Stated for any positive cap, in particular the
512 KiB `LOG_LENGTH_MAX` used at the call site. -/
theorem truncateString_amended :
    LOG_LENGTH_MAX = 512 * 1024
    ∧ ∀ (s : List Char) (len : Nat), 0 < len →
      (s.length < len → truncateString s len = s)
      ∧ (len ≤ s.length →
          truncateString s len <+: s
          ∧ (truncateString s len).length < len
          ∧ ('\n' ∈ s.take len →
              endsAtNewlineBoundary s (truncateString s len))
          ∧ ('\n' ∉ s.take len → truncateString s len = s.take (len - 1))) := by
  refine ⟨rfl, ?_⟩
  intro s len hpos
  constructor
  · intro h
    simp [truncateString, h]
  · intro hge
    have hnlt : ¬ s.length < len := not_lt.mpr hge
    have hlen1 : (s.take len).length = len := by
      rw [List.length_take]
      omega
    by_cases hmem : '\n' ∈ s.take len
    · obtain ⟨h0, hlt, hget⟩ := jsLastIndexOf_spec_of_mem hmem
      have hs0 : ¬ jsLastIndexOf (s.take len) '\n' < 0 := not_lt.mpr h0
      have hres : truncateString s len
          = (s.take len).take (jsLastIndexOf (s.take len) '\n').toNat := by
        unfold truncateString jsSlice0
        rw [if_neg hnlt, if_neg hs0]
      rw [hres]
      have hlen2 : ((s.take len).take
          (jsLastIndexOf (s.take len) '\n').toNat).length
          = (jsLastIndexOf (s.take len) '\n').toNat := by
        rw [List.length_take]
        omega
      refine ⟨(List.take_prefix _ _).trans (List.take_prefix _ _), ?_, ?_, ?_⟩
      · rw [hlen2]
        omega
      · intro _
        right
        rw [hlen2]
        rw [List.getElem?_take, if_pos (by omega)] at hget
        exact hget
      · intro h
        exact absurd hmem h
    · have hr : jsLastIndexOf (s.take len) '\n' = -1 :=
        jsLastIndexOf_of_not_mem hmem
      have hres : truncateString s len = s.take (len - 1) := by
        unfold truncateString jsSlice0
        rw [if_neg hnlt, hr, if_pos (by decide), hlen1, List.take_take]
        congr 1
        have h1 : ((-(-1 : Int)).toNat) = 1 := by decide
        rw [h1]
        omega
      rw [hres]
      refine ⟨List.take_prefix _ _, ?_, ?_, fun _ => rfl⟩
      · rw [List.length_take]
        omega
      · intro h
        exact absurd h hmem

theorem truncateString_amended_witness :
    truncateString "ab\ncd".data 4 <+: "ab\ncd".data
    ∧ (truncateString "ab\ncd".data 4).length < 4
    ∧ endsAtNewlineBoundary "ab\ncd".data (truncateString "ab\ncd".data 4)
    ∧ truncateString "xyzw".data 3 = "xyzw".data.take 2 := by
  have h1 := (truncateString_amended.2 "ab\ncd".data 4 (by decide)).2 (by decide)
  have h2 := (truncateString_amended.2 "xyzw".data 3 (by decide)).2 (by decide)
  exact ⟨h1.1, h1.2.1, h1.2.2.1 (by decide), h2.2.2.2 (by decide)⟩

lemma jsIsDigit_not_space {c : Char} (h : jsIsDigit c = true) :
    jsIsSpace c = false := by
  simp only [jsIsDigit, Bool.and_eq_true, decide_eq_true_eq] at h
  simp only [jsIsSpace, decide_eq_false_iff_not]
  omega

lemma takeWhile_dropWhile_append_cons (p : Char → Bool) (l1 : List Char)
    (b : Char) (l2 : List Char) (h1 : ∀ c ∈ l1, p c = true)
    (h2 : p b = false) :
    (l1 ++ b :: l2).takeWhile p = l1
    ∧ (l1 ++ b :: l2).dropWhile p = b :: l2 := by
  induction l1 with
  | nil => simp [List.takeWhile_cons, List.dropWhile_cons, h2]
  | cons a l1 ih =>
    have ha : p a = true := h1 a (List.mem_cons_self _ _)
    have hrec := ih fun c hc => h1 c (List.mem_cons_of_mem _ hc)
    simp [List.takeWhile_cons, List.dropWhile_cons, ha, hrec.1, hrec.2]

lemma stepRegexMatch_of_shape (d1 d2 t : List Char) (hd1 : d1 ≠ [])
    (hd1d : ∀ c ∈ d1, jsIsDigit c = true) (hd2 : d2 ≠ [])
    (hd2d : ∀ c ∈ d2, jsIsDigit c = true) (ht : t ≠ [])
    (htn : t.any jsIsLineTerminator = false) :
    stepRegexMatch ("Step ".data ++ d1 ++ "/".data ++ d2 ++ ": ".data ++ t)
      = some (d1, d2, t) := by
  obtain ⟨c1, d1', rfl⟩ := List.exists_cons_of_ne_nil hd1
  obtain ⟨c2, d2', rfl⟩ := List.exists_cons_of_ne_nil hd2
  obtain ⟨ct, t', rfl⟩ := List.exists_cons_of_ne_nil ht
  have hc1 : jsIsDigit c1 = true := hd1d c1 (List.mem_cons_self _ _)
  have hsp1 : jsIsSpace c1 = false := jsIsDigit_not_space hc1
  have hE : ("Step ".data ++ (c1 :: d1') ++ "/".data ++ (c2 :: d2')
        ++ ": ".data ++ (ct :: t') : List Char)
      = 'S' :: 't' :: 'e' :: 'p' :: ' '
          :: (c1 :: (d1' ++ '/' :: (c2 :: (d2' ++ ':' :: ' ' :: ct :: t')))) := by
    have hS : ("Step ".data : List Char) = ['S', 't', 'e', 'p', ' '] := rfl
    have hsl : ("/".data : List Char) = ['/'] := rfl
    have hco : (": ".data : List Char) = [':', ' '] := rfl
    rw [hS, hsl, hco]
    simp
  rw [hE]
  have hdw0 : List.dropWhile jsIsSpace
      ('S' :: 't' :: 'e' :: 'p' :: ' '
        :: (c1 :: (d1' ++ '/' :: (c2 :: (d2' ++ ':' :: ' ' :: ct :: t')))))
      = 'S' :: 't' :: 'e' :: 'p' :: ' '
          :: (c1 :: (d1' ++ '/' :: (c2 :: (d2' ++ ':' :: ' ' :: ct :: t')))) := by
    rw [List.dropWhile_cons, if_neg (by decide)]
  have hspan1 := takeWhile_dropWhile_append_cons jsIsSpace [' '] c1
    (d1' ++ '/' :: (c2 :: (d2' ++ ':' :: ' ' :: ct :: t')))
    (by intro c hc; rw [List.mem_singleton] at hc; subst hc; decide) hsp1
  have hspan2 := takeWhile_dropWhile_append_cons jsIsDigit (c1 :: d1') '/'
    (c2 :: (d2' ++ ':' :: ' ' :: ct :: t')) hd1d (by decide)
  have hspan3 := takeWhile_dropWhile_append_cons jsIsDigit (c2 :: d2') ':'
    (' ' :: ct :: t') hd2d (by decide)
  have h1t := hspan1.1
  have h1d := hspan1.2
  have h2t := hspan2.1
  have h2d := hspan2.2
  have h3t := hspan3.1
  have h3d := hspan3.2
  simp only [List.cons_append, List.nil_append] at h1t h1d h2t h2d h3t h3d
  unfold stepRegexMatch
  rw [hdw0]
  simp only [h1t, h1d, h2t, h2d, h3t, h3d, List.dropWhile_cons,
    show jsIsSpace ':' = false from by decide, if_neg]
  simp at htn
  simp [htn.1]
  exact htn.2

/-- Claim C3: in non-inline mode the adapter maps the concrete line
`Step 3/10: RUN foo` (from its initial state) to a structured event with the
same status text and progress `30`; in general a line `Step N/M: <text>`
yields progress `⌊N * 100 / M⌋`; any line beginning `Successfully tagged `
yields an event with undefined progress (in any state); and in inline mode
every line is emitted as a plain status event with no progress. -/
theorem buildProgressAdapter_spec :
    ((buildProgressAdapterStep false initialAdapterState
        "Step 3/10: RUN foo".data).2
      = { status := some "Step 3/10: RUN foo".data, progress := some 30 })
    ∧ (∀ d1 d2 t : List Char,
        d1 ≠ [] → (∀ c ∈ d1, jsIsDigit c = true) →
        d2 ≠ [] → (∀ c ∈ d2, jsIsDigit c = true) →
        t ≠ [] → t.any jsIsLineTerminator = false →
        0 < parseIntDigits d2 →
        (buildProgressAdapterStep false initialAdapterState
            ("Step ".data ++ d1 ++ "/".data ++ d2 ++ ": ".data ++ t)).2
          = { status := some ("Step ".data ++ d1 ++ "/".data ++ d2
                ++ ": ".data ++ t),
              progress :=
                some (parseIntDigits d1 * 100 / parseIntDigits d2) })
    ∧ (∀ (st : AdapterState) (str : List Char),
        "Successfully tagged ".data.isPrefixOf str = true →
        (buildProgressAdapterStep false st str).2.progress = none)
    ∧ (∀ (st : AdapterState) (str : List Char),
        (buildProgressAdapterStep true st str).2
          = { status := some str, progress := none }) := by
  refine ⟨by decide, ?_, ?_, ?_⟩
  · intro d1 d2 t hd1 hd1d hd2 hd2d ht htn _
    have hmatch := stepRegexMatch_of_shape d1 d2 t hd1 hd1d hd2 hd2d ht htn
    obtain ⟨c1, d1', rfl⟩ := List.exists_cons_of_ne_nil hd1
    have hpre : "Successfully tagged ".data.isPrefixOf
        ("Step ".data ++ (c1 :: d1') ++ "/".data ++ d2 ++ ": ".data ++ t)
        = false := by
      have hlit : ("Successfully tagged ".data : List Char)
          = 'S' :: 'u' :: "ccessfully tagged ".data := rfl
      have hS : ("Step ".data ++ (c1 :: d1') ++ "/".data ++ d2
            ++ ": ".data ++ t : List Char)
          = 'S' :: 't' :: ("ep ".data ++ (c1 :: d1') ++ "/".data ++ d2
              ++ ": ".data ++ t) := by
        simp
      rw [hlit, hS]
      simp only [List.isPrefixOf]
      rw [show (('u' : Char) == 't') = false from by decide]
      simp
    unfold buildProgressAdapterStep
    rw [if_neg (by simp), if_neg (by simp [hpre]), hmatch]
    simp [initialAdapterState]
  · intro st str hpre
    unfold buildProgressAdapterStep
    rw [if_neg (by simp), if_pos (by simp [hpre])]
  · intro st str
    rfl

theorem buildProgressAdapter_spec_witness :
    ((buildProgressAdapterStep false initialAdapterState
        ("Step ".data ++ "7".data ++ "/".data ++ "9".data ++ ": ".data
          ++ "COPY x".data)).2
      = { status := some ("Step ".data ++ "7".data ++ "/".data ++ "9".data
            ++ ": ".data ++ "COPY x".data),
          progress :=
            some (parseIntDigits "7".data * 100 / parseIntDigits "9".data) })
    ∧ (buildProgressAdapterStep false ⟨some "3".data, some "10".data, some 30⟩
        "Successfully tagged myimg:latest".data).2.progress = none
    ∧ (buildProgressAdapterStep true initialAdapterState "any line".data).2
      = { status := some "any line".data, progress := none } :=
  ⟨buildProgressAdapter_spec.2.1 "7".data "9".data "COPY x".data (by decide)
      (by decide) (by decide) (by decide) (by decide) (by decide) (by decide),
    buildProgressAdapter_spec.2.2.1 ⟨some "3".data, some "10".data, some 30⟩
      "Successfully tagged myimg:latest".data (by decide),
    buildProgressAdapter_spec.2.2.2 initialAdapterState "any line".data⟩

/-- Claim C4: the architecture-to-emulator mapping is total only on a closed
set: `armv7hf`, `rpi` and `armhf` all map to the same emulator variant
(`arm`), `aarch64` maps to a distinct variant (`aarch64`), and every other
input string makes the mapping throw an error rather than return a default. -/
theorem balenaArchToQemuArch_spec :
    (balenaArchToQemuArch "armv7hf" = .ok "arm"
      ∧ balenaArchToQemuArch "rpi" = .ok "arm"
      ∧ balenaArchToQemuArch "armhf" = .ok "arm")
    ∧ (balenaArchToQemuArch "aarch64" = .ok "aarch64"
      ∧ ("aarch64" : String) ≠ "arm")
    ∧ (∀ arch : String, arch ≠ "armv7hf" → arch ≠ "rpi" → arch ≠ "armhf" →
        arch ≠ "aarch64" →
        balenaArchToQemuArch arch
          = .error ("Cannot install emulator for architecture " ++ arch)) := by
  refine ⟨⟨rfl, rfl, rfl⟩, ⟨rfl, by decide⟩, ?_⟩
  intro arch h1 h2 h3 h4
  simp [balenaArchToQemuArch, h1, h2, h3, h4]

theorem balenaArchToQemuArch_spec_witness :
    balenaArchToQemuArch "amd64"
      = .error ("Cannot install emulator for architecture " ++ "amd64") :=
  balenaArchToQemuArch_spec.2.2 "amd64" (by decide) (by decide) (by decide)
    (by decide)

/-- Claim C6: emulator provisioning is idempotent. If the versioned cached
binary already exists, `installQemuIfNeeded` performs no download/install
(and when emulation is active it still reports `true`); when the binary is
absent and the architecture is supported, the first call performs exactly one
install and the second call is an error-free no-op, so two calls perform
exactly one install in total. -/
theorem installQemuIfNeeded_idempotent :
    (∀ (em nq : Bool) (arch : String) (st : FsState),
        fsExists st (getQemuPath arch) = true →
        installQemuIfNeeded em nq arch st = ⟨.ok (em && nq), st, 0⟩)
    ∧ (∀ (arch qa : String) (st : FsState),
        balenaArchToQemuArch arch = .ok qa →
        fsExists st (getQemuPath arch) = false →
        (installQemuIfNeeded true true arch st).installs = 1
        ∧ (installQemuIfNeeded true true arch st).result = .ok true
        ∧ installQemuIfNeeded true true arch
            (installQemuIfNeeded true true arch st).fs
          = ⟨.ok true, (installQemuIfNeeded true true arch st).fs, 0⟩) := by
  constructor
  · intro em nq arch st h
    cases em <;> cases nq <;> simp [installQemuIfNeeded, h]
  · intro arch qa st hok hmiss
    have hinst : installQemu arch st
        = ({ files := getQemuPath arch :: st.files }, none) := by
      simp [installQemu, hok]
    have h1 : installQemuIfNeeded true true arch st
        = ⟨.ok true, { files := getQemuPath arch :: st.files }, 1⟩ := by
      simp [installQemuIfNeeded, hmiss, hinst]
    refine ⟨by rw [h1], by rw [h1], ?_⟩
    rw [h1]
    simp [installQemuIfNeeded, fsExists]

theorem installQemuIfNeeded_idempotent_witness :
    (installQemuIfNeeded true true "armv7hf" ⟨[]⟩).installs = 1
    ∧ (installQemuIfNeeded true true "armv7hf" ⟨[]⟩).result = .ok true
    ∧ installQemuIfNeeded true true "armv7hf"
        (installQemuIfNeeded true true "armv7hf" ⟨[]⟩).fs
      = ⟨.ok true, (installQemuIfNeeded true true "armv7hf" ⟨[]⟩).fs, 0⟩ :=
  installQemuIfNeeded_idempotent.2 "armv7hf" "arm" ⟨[]⟩ (by rfl) (by rfl)

lemma stripStatusHeader_append (s : List Char) :
    stripStatusHeader ("Status: ".data ++ s) = s := by
  unfold stripStatusHeader
  rw [if_pos (List.isPrefixOf_iff_prefix.mpr (List.prefix_append _ _))]
  have h8 : ("Status: ".data : List Char).length = 8 := rfl
  rw [← h8, List.drop_left]

/-- Claim C8 is refuted on this input: the event
`{error: "", progress: undefined, status: "hi"}` *has* an `error` field, yet
the code logs the status `"hi"` (not the error's string `""`), because the
branch tests JS truthiness of `data.error`, not field presence. -/
theorem buildLogCapture_counterexample :
    (StructuredEvent.error ⟨some [], none, some "hi".data⟩).isSome = true
    ∧ (buildLogCaptureStep (.obj ⟨some [], none, some "hi".data⟩)).1
        = .raw "hi".data
    ∧ StreamData.raw "hi".data ≠ .raw [] := by decide

/-- Claim C8 (amended): the capture transform classifies each datum in fixed
order by JS truthiness: a truthy (non-empty) `error` is logged as the
error's string; otherwise a truthy (non-zero) `progress` together with a
truthy (non-empty) `status` is logged as `<progress>% <status>`; otherwise a
truthy `status` is logged verbatim; any other payload — raw build lines and
events whose present fields are all falsy — is appended to the buffer
unchanged. In every case exactly one entry is produced and the original
datum is passed through downstream unmodified. -/
theorem buildLogCapture_amended :
    (∀ (e : StructuredEvent) (s : List Char), e.error = some s → s ≠ [] →
        (buildLogCaptureStep (.obj e)).1 = .raw s)
    ∧ (∀ (e : StructuredEvent) (p : Nat) (s : List Char),
        truthyStr e.error = false → e.progress = some p → p ≠ 0 →
        e.status = some s → s ≠ [] →
        (buildLogCaptureStep (.obj e)).1
          = .raw ((toString p).data ++ "% ".data ++ s))
    ∧ (∀ (e : StructuredEvent) (s : List Char),
        truthyStr e.error = false → truthyNat e.progress = false →
        e.status = some s → s ≠ [] →
        (buildLogCaptureStep (.obj e)).1 = .raw s)
    ∧ (∀ e : StructuredEvent, truthyStr e.error = false →
        truthyNat e.progress = false → truthyStr e.status = false →
        (buildLogCaptureStep (.obj e)).1 = .obj e)
    ∧ (∀ s : List Char, (buildLogCaptureStep (.raw s)).1 = .raw s)
    ∧ (∀ d : StreamData, (buildLogCaptureStep d).2 = d) := by
  refine ⟨?_, ?_, ?_, ?_, fun s => rfl, fun d => rfl⟩
  · intro e s herr hne
    simp [buildLogCaptureStep, truthyStr, herr, List.isEmpty_iff, hne]
  · intro e p s herr hp hpne hst hsne
    have hts : truthyStr (some s) = true := by
      simp [truthyStr, List.isEmpty_iff, hsne]
    have htp : truthyNat (some p) = true := by
      simp [truthyNat, hpne]
    simp [buildLogCaptureStep, herr, hp, hst, htp, hts]
  · intro e s herr hp hst hsne
    have hts : truthyStr (some s) = true := by
      simp [truthyStr, List.isEmpty_iff, hsne]
    simp [buildLogCaptureStep, herr, hp, hst, hts]
  · intro e herr hp hst
    simp [buildLogCaptureStep, herr, hp, hst]

theorem buildLogCapture_amended_witness :
    (buildLogCaptureStep (.obj ⟨some "boom".data, none, some "st".data⟩)).1
      = .raw "boom".data
    ∧ (buildLogCaptureStep (.obj ⟨none, some 30, some "st".data⟩)).1
      = .raw ((toString 30).data ++ "% ".data ++ "st".data)
    ∧ (buildLogCaptureStep (.obj ⟨none, none, some "st".data⟩)).1
      = .raw "st".data
    ∧ (buildLogCaptureStep (.obj ⟨some [], some 0, some []⟩)).1
      = .obj ⟨some [], some 0, some []⟩ :=
  ⟨buildLogCapture_amended.1 ⟨some "boom".data, none, some "st".data⟩
      "boom".data rfl (by decide),
    buildLogCapture_amended.2.1 ⟨none, some 30, some "st".data⟩ 30 "st".data
      (by decide) rfl (by decide) rfl (by decide),
    buildLogCapture_amended.2.2.1 ⟨none, none, some "st".data⟩ "st".data
      (by decide) (by decide) rfl (by decide),
    buildLogCapture_amended.2.2.2.1 ⟨some [], some 0, some []⟩ (by decide)
      (by decide) (by decide)⟩

/-- Claim C10: for every incoming pull event the adapter strips a leading
`Status: ` from the status, prefixes `<id>: ` when an `id` is present, and
forwards a reported percentage of exactly 100 as undefined progress (other
percentages pass through), emitting a structured event. -/
theorem pullProgressAdapter_spec :
    (∀ (ev : PullEvent) (s : List Char),
        ev.status = some ("Status: ".data ++ s) → ev.id = none →
        (pullProgressAdapter ev).status = some s)
    ∧ (∀ (ev : PullEvent) (s i : List Char),
        ev.status = some s → ev.id = some i →
        (pullProgressAdapter ev).status
          = some (i ++ ": ".data ++ stripStatusHeader s))
    ∧ (∀ ev : PullEvent, ev.percentage = some 100 →
        (pullProgressAdapter ev).progress = none)
    ∧ (∀ ev : PullEvent, ev.percentage ≠ some 100 →
        (pullProgressAdapter ev).progress = ev.percentage) := by
  refine ⟨?_, ?_, ?_, ?_⟩
  · intro ev s hst hid
    have hs2 : stripStatusHeader
        ('S' :: 't' :: 'a' :: 't' :: 'u' :: 's' :: ':' :: ' ' :: s) = s := by
      simpa using stripStatusHeader_append s
    simp [pullProgressAdapter, hst, hid, hs2]
  · intro ev s i hst hid
    simp [pullProgressAdapter, hst, hid]
  · intro ev h
    simp [pullProgressAdapter, h]
  · intro ev h
    simp [pullProgressAdapter, h]

theorem pullProgressAdapter_spec_witness :
    (pullProgressAdapter
        ⟨some ("Status: ".data ++ "Downloaded".data), none, none, none,
          none⟩).status = some "Downloaded".data
    ∧ (pullProgressAdapter
        ⟨some "Pulling".data, some "abc".data, none, none, none⟩).status
      = some ("abc".data ++ ": ".data ++ stripStatusHeader "Pulling".data)
    ∧ (pullProgressAdapter ⟨none, none, some 100, none, none⟩).progress
      = none
    ∧ (pullProgressAdapter ⟨none, none, some 41, none, none⟩).progress
      = some 41 :=
  ⟨pullProgressAdapter_spec.1 _ "Downloaded".data rfl rfl,
    pullProgressAdapter_spec.2.1 _ "Pulling".data "abc".data rfl rfl,
    pullProgressAdapter_spec.2.2.1 _ rfl,
    pullProgressAdapter_spec.2.2.2 _ (by decide)⟩

/-- Claim C5: each image is pushed under retry parameters (3 retries,
2000 ms initial delay, 1.4 backoff multiplier); a failed push sets that
image's record to `status = failed` with its error message, a successful
push to `status = success`; each image's final record is a function of that
image's own input alone (sibling failures cannot prevent its completion);
and the `afterEach` update callback fires exactly once per image — the call
list has one entry per image, namely that image's final record. -/
theorem pushAndUpdateServiceImages_spec :
    pushRetryParams.times = 3 ∧ pushRetryParams.delayMs = 2000
    ∧ pushRetryParams.backoffScaler = 14 / 10
    ∧ (∀ (now : Nat) (images : List PushImageInput) (i : Nat),
        (pushAndUpdateServiceImages now images).1.length = images.length
        ∧ (pushAndUpdateServiceImages now images).2.1.length = images.length
        ∧ (pushAndUpdateServiceImages now images).1[i]?
            = (images[i]?).map (pushOneImage now)
        ∧ (pushAndUpdateServiceImages now images).2.1[i]?
            = (images[i]?).map (pushOneImage now))
    ∧ (∀ (now : Nat) (inp : PushImageInput) (e : String),
        inp.pushResult = .error e →
        (pushOneImage now inp).status = some "failed"
        ∧ (pushOneImage now inp).error_message = some e)
    ∧ (∀ (now : Nat) (inp : PushImageInput) (d : String),
        inp.pushResult = .ok d →
        (pushOneImage now inp).status = some "success") := by
  refine ⟨rfl, rfl, rfl, ?_, ?_, ?_⟩
  · intro now images i
    refine ⟨?_, ?_, ?_, ?_⟩ <;>
      simp [pushAndUpdateServiceImages, List.getElem?_map]
  · intro now inp e h
    constructor <;> simp [pushOneImage, h]
  · intro now inp d h
    simp [pushOneImage, h]

theorem pushAndUpdateServiceImages_spec_witness :
    (pushOneImage 5
        ⟨10, .error "boom", "lg", none, none, none, none,
          ⟨none, none, none, none, none, none, none, none, none,
            none⟩⟩).status = some "failed"
    ∧ (pushOneImage 5
        ⟨10, .error "boom", "lg", none, none, none, none,
          ⟨none, none, none, none, none, none, none, none, none,
            none⟩⟩).error_message = some "boom"
    ∧ (pushOneImage 5
        ⟨10, .ok "sha256", "lg", none, none, none, none,
          ⟨none, none, none, none, none, none, none, none, none,
            none⟩⟩).status = some "success"
    ∧ (pushAndUpdateServiceImages 5 []).1.length = 0 :=
  ⟨(pushAndUpdateServiceImages_spec.2.2.2.2.1 5 _ "boom" rfl).1,
    (pushAndUpdateServiceImages_spec.2.2.2.2.1 5 _ "boom" rfl).2,
    pushAndUpdateServiceImages_spec.2.2.2.2.2 5 _ "sha256" rfl,
    (pushAndUpdateServiceImages_spec.2.2.2.1 5 [] 0).1⟩

/-- Claim C1: for a deploy run whose release record was created, the
persisted final status is `success` iff the tagging-and-push chain resolved
without throwing; a tagging error yields `failed` while still reaching the
finalize step; the finalize step always sets an end timestamp and persists
the release exactly when it has an identity; and — tagging and cleanup
succeeding — the status is `success` iff every per-image push succeeded. -/
theorem deployProject_release_status (now : Nat) (r : Release)
    (oc : DeployOutcomes) :
    ((deployProject now r oc).1.status = some "success"
      ↔ deployStageThrew now oc = false)
    ∧ (deployProject now r oc).1.endTimestampSet = true
    ∧ ((deployProject now r oc).2 = true ↔ r.id ≠ none)
    ∧ (∀ e, oc.tagResult = .error e →
        (deployProject now r oc).1.status = some "failed"
        ∧ (deployProject now r oc).1.endTimestampSet = true)
    ∧ (oc.tagResult = .ok () → oc.untagOk = true →
        ((deployProject now r oc).1.status = some "success"
          ↔ ∀ i ∈ oc.pushImages, exceptThrew i.pushResult = false)) := by
  refine ⟨?_, rfl, ?_, ?_, ?_⟩
  · by_cases h : deployStageThrew now oc <;> simp [deployProject, h]
  · simp [deployProject, Option.isSome_iff_ne_none]
  · intro e h
    have hthrew : deployStageThrew now oc = true := by
      simp [deployStageThrew, h]
    exact ⟨by simp [deployProject, hthrew], rfl⟩
  · intro htag huntag
    have hthrew : deployStageThrew now oc
        = oc.pushImages.any fun i => exceptThrew i.pushResult := by
      simp [deployStageThrew, htag, huntag, pushAndUpdateServiceImages]
    by_cases h : (oc.pushImages.any fun i => exceptThrew i.pushResult) = true
    · have hb : deployStageThrew now oc = true := hthrew.trans h
      rw [List.any_eq_true] at h
      obtain ⟨i, hi, hthr⟩ := h
      simp only [deployProject, hb]
      constructor
      · intro hcontra
        exact absurd hcontra (by simp)
      · intro hall
        exact absurd (hall i hi) (by simp [hthr])
    · rw [Bool.not_eq_true] at h
      have hb : deployStageThrew now oc = false := hthrew.trans h
      rw [List.any_eq_false] at h
      simp only [deployProject, hb]
      constructor
      · intro _ i hi
        simpa using h i hi
      · intro _
        simp

theorem deployProject_release_status_witness :
    ((deployProject 0 ⟨some 7, none, false⟩
        ⟨.error "Could not parse imageName", .ok "tok", [], true⟩).1.status
      = some "failed")
    ∧ ((deployProject 0 ⟨some 7, none, false⟩
        ⟨.ok (), .ok "tok", [], true⟩).1.status = some "success") :=
  ⟨((deployProject_release_status 0 ⟨some 7, none, false⟩
      ⟨.error "Could not parse imageName", .ok "tok", [], true⟩).2.2.2.1
      "Could not parse imageName" rfl).1,
    ((deployProject_release_status 0 ⟨some 7, none, false⟩
      ⟨.ok (), .ok "tok", [], true⟩).2.2.2.2 rfl rfl).mpr
      (by intro i hi; cases hi)⟩

/-- Claim C9: for both renderer variants `end` is idempotent — the first
call (from a not-yet-ended state) unregisters interrupt handling (where
registered, i.e. the interactive renderer), stops the runloop and performs
exactly one final render/write, and every subsequent call is a no-op that
leaves the renderer state unchanged. -/
theorem renderer_end_idempotent :
    (∀ st : UIState, uiEnd (uiEnd st) = uiEnd st)
    ∧ (∀ st : UIState, st.ended = false →
        (uiEnd st).sigintRegistered = false
        ∧ (uiEnd st).runloopActive = false
        ∧ (uiEnd st).renders = st.renders + 1
        ∧ (uiEnd st).ended = true)
    ∧ (∀ st : UIState, st.ended = true → uiEnd st = st)
    ∧ (∀ st : InlineState, inlineEnd (inlineEnd st) = inlineEnd st)
    ∧ (∀ st : InlineState, st.ended = false →
        (inlineEnd st).finalWrites = st.finalWrites + 1
        ∧ (inlineEnd st).ended = true)
    ∧ (∀ st : InlineState, st.ended = true → inlineEnd st = st) := by
  refine ⟨?_, ?_, ?_, ?_, ?_, ?_⟩
  · intro st
    by_cases h : st.ended <;> simp [uiEnd, h]
  · intro st h
    simp [uiEnd, h]
  · intro st h
    simp [uiEnd, h]
  · intro st
    by_cases h : st.ended <;> simp [inlineEnd, h]
  · intro st h
    simp [inlineEnd, h]
  · intro st h
    simp [inlineEnd, h]

theorem renderer_end_idempotent_witness :
    ((uiEnd (uiStart ⟨false, false, false, false, 0⟩)).sigintRegistered
        = false
      ∧ (uiEnd (uiStart ⟨false, false, false, false, 0⟩)).runloopActive
        = false
      ∧ (uiEnd (uiStart ⟨false, false, false, false, 0⟩)).renders = 0 + 1
      ∧ (uiEnd (uiStart ⟨false, false, false, false, 0⟩)).ended = true)
    ∧ uiEnd (uiEnd (uiStart ⟨false, false, false, false, 0⟩))
      = uiEnd (uiStart ⟨false, false, false, false, 0⟩)
    ∧ (inlineEnd ⟨false, 0⟩).finalWrites = 0 + 1
    ∧ inlineEnd (inlineEnd ⟨false, 0⟩) = inlineEnd ⟨false, 0⟩ :=
  ⟨renderer_end_idempotent.2.1 (uiStart ⟨false, false, false, false, 0⟩) rfl,
    renderer_end_idempotent.1 (uiStart ⟨false, false, false, false, 0⟩),
    (renderer_end_idempotent.2.2.2.2.1 ⟨false, 0⟩ rfl).1,
    renderer_end_idempotent.2.2.2.1 ⟨false, 0⟩⟩

lemma lookupStr_upsertStr_self (o : List (String × String)) (k v : String) :
    lookupStr (upsertStr o k v) k = some v := by
  induction o with
  | nil => simp [upsertStr, lookupStr]
  | cons kv rest ih =>
    obtain ⟨k0, v0⟩ := kv
    by_cases h : k0 = k
    · simp [upsertStr, lookupStr, h]
    · simp [upsertStr, lookupStr, h, ih]

lemma lookupStr_upsertStr_ne (o : List (String × String)) (k k' v : String)
    (h : k' ≠ k) : lookupStr (upsertStr o k v) k' = lookupStr o k' := by
  induction o with
  | nil => simp [upsertStr, lookupStr, Ne.symm h]
  | cons kv rest ih =>
    obtain ⟨k0, v0⟩ := kv
    by_cases h0 : k0 = k
    · subst h0
      simp [upsertStr, lookupStr, Ne.symm h]
    · simp [upsertStr, lookupStr, h0, ih]

lemma lookupVal_upsertVal_self (o : JsObj) (k : String) (v : JsVal) :
    lookupVal (upsertVal o k v) k = some v := by
  induction o with
  | nil => simp [upsertVal, lookupVal]
  | cons kv rest ih =>
    obtain ⟨k0, v0⟩ := kv
    by_cases h : k0 = k
    · simp [upsertVal, lookupVal, h]
    · simp [upsertVal, lookupVal, h, ih]

lemma lookupVal_upsertVal_ne (o : JsObj) (k k' : String) (v : JsVal)
    (h : k' ≠ k) : lookupVal (upsertVal o k v) k' = lookupVal o k' := by
  induction o with
  | nil => simp [upsertVal, lookupVal, Ne.symm h]
  | cons kv rest ih =>
    obtain ⟨k0, v0⟩ := kv
    by_cases h0 : k0 = k
    · subst h0
      simp [upsertVal, lookupVal, Ne.symm h]
    · simp [upsertVal, lookupVal, h0, ih]

lemma mergeEntry_str (d : JsObj) (k s : String) :
    mergeEntry d k (.str s) = upsertVal d k (.str s) := by
  unfold mergeEntry
  rcases lookupVal d k with _ | v0
  · rfl
  · cases v0 <;> rfl

lemma mergeEntry_map_none (d : JsObj) (k : String)
    (m : List (String × String)) (h : lookupVal d k = none) :
    mergeEntry d k (.map m) = upsertVal d k (.map m) := by
  unfold mergeEntry
  rw [h]

lemma mergeEntry_map_str (d : JsObj) (k s : String)
    (m : List (String × String)) (h : lookupVal d k = some (.str s)) :
    mergeEntry d k (.map m) = upsertVal d k (.map m) := by
  unfold mergeEntry
  rw [h]

lemma mergeEntry_map_map (d : JsObj) (k : String)
    (m1 m2 : List (String × String)) (h : lookupVal d k = some (.map m1)) :
    mergeEntry d k (.map m2) = upsertVal d k (.map (mergeFlat m1 m2)) := by
  unfold mergeEntry
  rw [h]

lemma lookupVal_mergeEntry_ne (d : JsObj) (k k' : String) (v : JsVal)
    (h : k' ≠ k) : lookupVal (mergeEntry d k v) k' = lookupVal d k' := by
  cases v with
  | str s => rw [mergeEntry_str, lookupVal_upsertVal_ne _ _ _ _ h]
  | map m =>
    rcases hlk : lookupVal d k with _ | v0
    · rw [mergeEntry_map_none _ _ _ hlk, lookupVal_upsertVal_ne _ _ _ _ h]
    · cases v0 with
      | str s =>
        rw [mergeEntry_map_str _ _ _ _ hlk, lookupVal_upsertVal_ne _ _ _ _ h]
      | map m1 =>
        rw [mergeEntry_map_map _ _ _ _ hlk, lookupVal_upsertVal_ne _ _ _ _ h]

lemma jsMergeObj_nil (d : JsObj) : jsMergeObj d [] = d := rfl

lemma jsMergeObj_cons (d : JsObj) (k : String) (v : JsVal) (rest : JsObj) :
    jsMergeObj d ((k, v) :: rest) = jsMergeObj (mergeEntry d k v) rest := rfl

lemma lookupVal_jsMergeObj_of_not_key {k : String} :
    ∀ (src d : JsObj), k ∉ src.map Prod.fst →
      lookupVal (jsMergeObj d src) k = lookupVal d k
  | [], _, _ => rfl
  | (k0, v0) :: rest, d, h => by
    have hk0 : k ≠ k0 := by
      intro he
      exact h (by simp [he])
    have hrest : k ∉ rest.map Prod.fst := fun hm => h (by simp [hm])
    rw [jsMergeObj_cons, lookupVal_jsMergeObj_of_not_key rest _ hrest,
      lookupVal_mergeEntry_ne _ _ _ _ hk0]

lemma lookupVal_jsMergeObj_str {k s : String} :
    ∀ (src d : JsObj), (src.map Prod.fst).Nodup →
      lookupVal src k = some (.str s) →
      lookupVal (jsMergeObj d src) k = some (.str s)
  | [], _, _, h => by simp [lookupVal] at h
  | (k0, v0) :: rest, d, hnd, h => by
    rw [jsMergeObj_cons]
    by_cases he : k0 = k
    · subst he
      have hv : v0 = .str s := by
        simp [lookupVal] at h
        exact h
      subst hv
      have hnotin : k0 ∉ rest.map Prod.fst := by
        rw [List.map_cons, List.nodup_cons] at hnd
        exact hnd.1
      rw [lookupVal_jsMergeObj_of_not_key rest _ hnotin, mergeEntry_str,
        lookupVal_upsertVal_self]
    · have h' : lookupVal rest k = some (.str s) := by
        simpa [lookupVal, he] using h
      have hnd' : (rest.map Prod.fst).Nodup := by
        rw [List.map_cons, List.nodup_cons] at hnd
        exact hnd.2
      exact lookupVal_jsMergeObj_str rest _ hnd' h'

lemma mergeFlat_nil (d : List (String × String)) : mergeFlat d [] = d := rfl

lemma mergeFlat_cons (d : List (String × String)) (k v : String)
    (rest : List (String × String)) :
    mergeFlat d ((k, v) :: rest) = mergeFlat (upsertStr d k v) rest := rfl

lemma lookupStr_mergeFlat_of_not_key {a : String} :
    ∀ (src d : List (String × String)), a ∉ src.map Prod.fst →
      lookupStr (mergeFlat d src) a = lookupStr d a
  | [], _, _ => rfl
  | (k0, v0) :: rest, d, h => by
    have hk0 : a ≠ k0 := by
      intro he
      exact h (by simp [he])
    have hrest : a ∉ rest.map Prod.fst := fun hm => h (by simp [hm])
    rw [mergeFlat_cons, lookupStr_mergeFlat_of_not_key rest _ hrest,
      lookupStr_upsertStr_ne _ _ _ _ hk0]

lemma lookupStr_mergeFlat_mem {a v : String} :
    ∀ (src d : List (String × String)), (src.map Prod.fst).Nodup →
      lookupStr src a = some v →
      lookupStr (mergeFlat d src) a = some v
  | [], _, _, h => by simp [lookupStr] at h
  | (k0, v0) :: rest, d, hnd, h => by
    rw [mergeFlat_cons]
    by_cases he : k0 = a
    · subst he
      have hv : v0 = v := by simpa [lookupStr] using h
      subst hv
      have hnotin : k0 ∉ rest.map Prod.fst := by
        rw [List.map_cons, List.nodup_cons] at hnd
        exact hnd.1
      rw [lookupStr_mergeFlat_of_not_key rest _ hnotin,
        lookupStr_upsertStr_self]
    · have h' : lookupStr rest a = some v := by
        simpa [lookupStr, he] using h
      have hnd' : (rest.map Prod.fst).Nodup := by
        rw [List.map_cons, List.nodup_cons] at hnd
        exact hnd.2
      exact lookupStr_mergeFlat_mem rest _ hnd' h'

lemma lookupVal_configureBuildOpts_ne (taskOpts : Option JsObj)
    (buildOpts : JsObj) (tag : String) (args : List (String × String))
    (k : String) (hk : k ≠ "buildargs") :
    lookupVal (configureBuildOpts taskOpts buildOpts tag (some args)) k
      = lookupVal (mergedOptsBase taskOpts buildOpts tag) k := by
  unfold configureBuildOpts
  rcases hlk : lookupVal (mergedOptsBase taskOpts buildOpts tag) "buildargs"
    with _ | v0
  · exact lookupVal_upsertVal_ne _ _ _ _ hk
  · cases v0 with
    | str s => rfl
    | map m => exact lookupVal_upsertVal_ne _ _ _ _ hk

lemma lookupVal_mergedOptsBase_t (taskOpts : Option JsObj)
    (buildOpts : JsObj) (tag : String) :
    lookupVal (mergedOptsBase taskOpts buildOpts tag) "t"
      = some (.str tag) := by
  unfold mergedOptsBase
  rw [jsMergeObj_cons, jsMergeObj_nil, mergeEntry_str,
    lookupVal_upsertVal_self]

/-- Claim C7: the scheduler's option merge always places the task's tag
under key `t`; caller-supplied `buildOpts` take precedence over the task's
existing options on conflicting scalar top-level keys (other than the
always-overwritten `t` and the specially treated `buildargs`); and the
descriptor's build-argument map is merged *into* the task's `buildargs`
map — its entries land in the result, while existing `buildargs` entries
for keys it does not mention are preserved rather than replaced. -/
theorem configureBuildOpts_spec :
    (∀ (taskOpts : Option JsObj) (buildOpts : JsObj) (tag : String)
        (contextArgs : Option (List (String × String))),
        lookupVal (configureBuildOpts taskOpts buildOpts tag contextArgs) "t"
          = some (.str tag))
    ∧ (∀ (taskOpts : Option JsObj) (buildOpts : JsObj) (tag : String)
        (contextArgs : Option (List (String × String))) (k v : String),
        (buildOpts.map Prod.fst).Nodup →
        lookupVal buildOpts k = some (.str v) → k ≠ "t" → k ≠ "buildargs" →
        lookupVal (configureBuildOpts taskOpts buildOpts tag contextArgs) k
          = some (.str v))
    ∧ (∀ (taskOpts : Option JsObj) (buildOpts : JsObj) (tag : String)
        (args : List (String × String)) (a v : String),
        (args.map Prod.fst).Nodup →
        (∀ s, lookupVal (mergedOptsBase taskOpts buildOpts tag) "buildargs"
            ≠ some (.str s)) →
        (lookupStr args a = some v →
          lookupStr (resultBuildargs
              (configureBuildOpts taskOpts buildOpts tag (some args))) a
            = some v)
        ∧ (a ∉ args.map Prod.fst →
          lookupStr (resultBuildargs
              (configureBuildOpts taskOpts buildOpts tag (some args))) a
            = lookupStr (resultBuildargs
                (mergedOptsBase taskOpts buildOpts tag)) a)) := by
  refine ⟨?_, ?_, ?_⟩
  · intro taskOpts buildOpts tag contextArgs
    cases contextArgs with
    | none => exact lookupVal_mergedOptsBase_t _ _ _
    | some args =>
      rw [lookupVal_configureBuildOpts_ne _ _ _ _ _ (by decide)]
      exact lookupVal_mergedOptsBase_t _ _ _
  · intro taskOpts buildOpts tag contextArgs k v hnd hlk hkt hkb
    have hbase : lookupVal (mergedOptsBase taskOpts buildOpts tag) k
        = some (.str v) := by
      unfold mergedOptsBase
      rw [jsMergeObj_cons, jsMergeObj_nil, mergeEntry_str,
        lookupVal_upsertVal_ne _ _ _ _ hkt]
      exact lookupVal_jsMergeObj_str buildOpts _ hnd hlk
    cases contextArgs with
    | none => exact hbase
    | some args =>
      rw [lookupVal_configureBuildOpts_ne _ _ _ _ _ hkb]
      exact hbase
  · intro taskOpts buildOpts tag args a v hnd hno
    rcases hlk : lookupVal (mergedOptsBase taskOpts buildOpts tag)
        "buildargs" with _ | v0
    · have hres : configureBuildOpts taskOpts buildOpts tag (some args)
          = upsertVal (mergedOptsBase taskOpts buildOpts tag) "buildargs"
              (.map (mergeFlat [] args)) := by
        unfold configureBuildOpts
        rw [hlk]
      have hba : resultBuildargs
          (configureBuildOpts taskOpts buildOpts tag (some args))
          = mergeFlat [] args := by
        rw [hres]
        unfold resultBuildargs
        rw [lookupVal_upsertVal_self]
      have hba0 : resultBuildargs (mergedOptsBase taskOpts buildOpts tag)
          = [] := by
        unfold resultBuildargs
        rw [hlk]
      constructor
      · intro hmem
        rw [hba]
        exact lookupStr_mergeFlat_mem args _ hnd hmem
      · intro hnk
        rw [hba, hba0, lookupStr_mergeFlat_of_not_key args _ hnk]
    · cases v0 with
      | str s => exact absurd hlk (hno s)
      | map m =>
        have hres : configureBuildOpts taskOpts buildOpts tag (some args)
            = upsertVal (mergedOptsBase taskOpts buildOpts tag) "buildargs"
                (.map (mergeFlat m args)) := by
          unfold configureBuildOpts
          rw [hlk]
        have hba : resultBuildargs
            (configureBuildOpts taskOpts buildOpts tag (some args))
            = mergeFlat m args := by
          rw [hres]
          unfold resultBuildargs
          rw [lookupVal_upsertVal_self]
        have hba0 : resultBuildargs (mergedOptsBase taskOpts buildOpts tag)
            = m := by
          unfold resultBuildargs
          rw [hlk]
        constructor
        · intro hmem
          rw [hba]
          exact lookupStr_mergeFlat_mem args _ hnd hmem
        · intro hnk
          rw [hba, hba0, lookupStr_mergeFlat_of_not_key args _ hnk]

theorem configureBuildOpts_spec_witness :
    lookupVal (configureBuildOpts
        (some [("nocache", .str "true"),
          ("buildargs", .map [("A", "1"), ("B", "2")])])
        [("nocache", .str "false"), ("memory", .str "64m")]
        "myapp_web" (some [("B", "9"), ("C", "3")])) "t"
      = some (.str "myapp_web")
    ∧ lookupVal (configureBuildOpts
        (some [("nocache", .str "true"),
          ("buildargs", .map [("A", "1"), ("B", "2")])])
        [("nocache", .str "false"), ("memory", .str "64m")]
        "myapp_web" (some [("B", "9"), ("C", "3")])) "nocache"
      = some (.str "false")
    ∧ lookupStr (resultBuildargs (configureBuildOpts
        (some [("nocache", .str "true"),
          ("buildargs", .map [("A", "1"), ("B", "2")])])
        [("nocache", .str "false"), ("memory", .str "64m")]
        "myapp_web" (some [("B", "9"), ("C", "3")]))) "C" = some "3"
    ∧ lookupStr (resultBuildargs (configureBuildOpts
        (some [("nocache", .str "true"),
          ("buildargs", .map [("A", "1"), ("B", "2")])])
        [("nocache", .str "false"), ("memory", .str "64m")]
        "myapp_web" (some [("B", "9"), ("C", "3")]))) "A"
      = lookupStr (resultBuildargs (mergedOptsBase
          (some [("nocache", .str "true"),
            ("buildargs", .map [("A", "1"), ("B", "2")])])
          [("nocache", .str "false"), ("memory", .str "64m")]
          "myapp_web")) "A" := by
  have hno : ∀ s, lookupVal (mergedOptsBase
      (some [("nocache", .str "true"),
        ("buildargs", .map [("A", "1"), ("B", "2")])])
      [("nocache", .str "false"), ("memory", .str "64m")]
      "myapp_web") "buildargs" ≠ some (.str s) := by
    intro s h
    rw [show lookupVal (mergedOptsBase
        (some [("nocache", .str "true"),
          ("buildargs", .map [("A", "1"), ("B", "2")])])
        [("nocache", .str "false"), ("memory", .str "64m")]
        "myapp_web") "buildargs" = some (.map [("A", "1"), ("B", "2")])
      from by decide] at h
    simp at h
  refine ⟨configureBuildOpts_spec.1 _ _ _ _,
    configureBuildOpts_spec.2.1 _ _ _ _ "nocache" "false" (by decide)
      (by decide) (by decide) (by decide),
    (configureBuildOpts_spec.2.2 _ _ "myapp_web" [("B", "9"), ("C", "3")]
      "C" "3" (by decide) hno).1 (by decide),
    (configureBuildOpts_spec.2.2 _ _ "myapp_web" [("B", "9"), ("C", "3")]
      "A" "1" (by decide) hno).2 (by decide)⟩

end BalenaCLI

